import Mathlib

/-!
Verification development for the Arint Screenshot browser extension.

The definitions below are a shallow embedding of the extension's source:

* the full-page capture pipeline of src/arint-background.js
  (captureFullPage, getPageDimensions, stitchImages, and the
  GET_PENDING_CAPTURE / openEditor pending-capture slot);
* the region selector's mouse-up handler of the content script
  (onMouseUp with its 10 px minimum-extent rule);
* the editor's undo/redo history of arint-editor.js
  (saveState, undo, redo, restoreState, maxHistory).

Machine numbers are modelled as Nat (none of the quantities involved can
go negative in the source, except the two signed intermediate values of
stitchImages and the editor's history index, which are modelled as Int).
A raster image is a width, a height and a pixel function; a scrollable
page is a pixel function over device coordinates.  The browser's
scroll-position clamping (window.scrollTo clamps to the maximal scroll
offset scrollHeight - viewportHeight) is part of the model because
stitchImages' bottom-crop of the last segment is written against it.
-/

namespace Arint

/-- Configuration constant CONFIG.MAX_PAGE_HEIGHT of arint-background.js:
maximum page height (in CSS pixels) that a full-page capture will cover. -/
def MAX_PAGE_HEIGHT : Nat := 30000

/-- Page dimensions as returned by getPageDimensions (arint-background.js).
The pixelDensity field models window.devicePixelRatio, taken to be a
positive integer. -/
structure PageGeometry where
  scrollWidth : Nat
  scrollHeight : Nat
  viewportWidth : Nat
  viewportHeight : Nat
  pixelDensity : Nat
  deriving DecidableEq

/-- A raster image: dimensions in device pixels plus a pixel function.
Pixels are only meaningful for x < width and y < height. -/
structure Img where
  width : Nat
  height : Nat
  pixel : Nat → Nat → Nat

instance : Inhabited Img := ⟨⟨0, 0, fun _ _ => 0⟩⟩

/-- One entry of the captures array built by captureFullPage:
the captured viewport image, the scroll offset it was taken at, and the
is-final-segment tag (isLast in the source). -/
structure Capture where
  imageData : Img
  offsetY : Nat
  isLast : Bool

instance : Inhabited Capture := ⟨⟨default, 0, false⟩⟩

/-- Scroll clamping performed by the browser on window.scrollTo(0, y):
the effective vertical scroll offset is capped at
scrollHeight - viewportHeight (and at 0 from below, which Nat subtraction
gives for free when the page is shorter than the viewport). -/
def clampScroll (g : PageGeometry) (y : Nat) : Nat :=
  min y (g.scrollHeight - g.viewportHeight)

/-- Model of browser.tabs.captureVisibleTab after window.scrollTo(0, scrollY):
an image of the viewport, viewportWidth x viewportHeight in CSS pixels,
scaled by the pixel density; row r of the image is row
(clampedScroll * density + r) of the page. The page is a total pixel
function over device coordinates. -/
def captureVisibleTab (page : Nat → Nat → Nat) (g : PageGeometry) (scrollY : Nat) : Img :=
  { width := g.viewportWidth * g.pixelDensity
    height := g.viewportHeight * g.pixelDensity
    pixel := fun x y => page x (clampScroll g scrollY * g.pixelDensity + y) }

/-- Total height used by captureFullPage:
Math.min(dimensions.scrollHeight, CONFIG.MAX_PAGE_HEIGHT). -/
def totalHeight (g : PageGeometry) : Nat :=
  min g.scrollHeight MAX_PAGE_HEIGHT

/-- Number of captures computed by captureFullPage:
Math.ceil(totalHeight / viewportHeight), written for natural numbers. -/
def captureCount (g : PageGeometry) : Nat :=
  (totalHeight g + g.viewportHeight - 1) / g.viewportHeight

/-- The i-th element pushed onto the captures array by the loop of
captureFullPage: scroll to i * viewportHeight, capture the visible tab,
record the offset, and tag the last index. -/
def captureSegment (page : Nat → Nat → Nat) (g : PageGeometry) (i : Nat) : Capture :=
  { imageData := captureVisibleTab page g (i * g.viewportHeight)
    offsetY := i * g.viewportHeight
    isLast := i == captureCount g - 1 }

/-- The captures array assembled by the for-loop of captureFullPage,
in increasing index order. -/
def captureSegments (page : Nat → Nat → Nat) (g : PageGeometry) : List Capture :=
  (List.range (captureCount g)).map (captureSegment page g)

/-- Canvas-2D ctx.drawImage(img, 0, drawY): paint the whole image with its
top-left corner at vertical position drawY, leaving other pixels as they
were. -/
def drawImageFull (canvas : Nat → Nat → Nat) (img : Img) (drawY : Nat) : Nat → Nat → Nat :=
  fun x y =>
    if x < img.width ∧ drawY ≤ y ∧ y < drawY + img.height then
      img.pixel x (y - drawY)
    else canvas x y

/-- Canvas-2D ctx.drawImage(img, 0, sourceY, w, h, 0, drawY, w, h):
paint the source sub-rectangle starting at row sourceY, of height h,
at vertical position drawY. -/
def drawImageCropped (canvas : Nat → Nat → Nat) (img : Img) (sourceY h drawY : Nat) :
    Nat → Nat → Nat :=
  fun x y =>
    if x < img.width ∧ drawY ≤ y ∧ y < drawY + h then
      img.pixel x (sourceY + (y - drawY))
    else canvas x y

/-- Body of the for-of loop of stitchImages (arint-background.js, lines
211-233): draw one capture onto the canvas.  For the segment tagged last,
remainingHeight = scrollHeight * density - drawY and
sourceY = imageHeight - remainingHeight are computed as signed values; if
sourceY > 0 the bottom remainingHeight rows of the segment are drawn,
otherwise the whole segment is drawn. -/
def stitchStep (g : PageGeometry) (canvas : Nat → Nat → Nat) (c : Capture) : Nat → Nat → Nat :=
  let drawY := c.offsetY * g.pixelDensity
  if c.isLast then
    let remainingHeight : Int := (g.scrollHeight * g.pixelDensity : Nat) - (drawY : Int)
    let sourceY : Int := (c.imageData.height : Nat) - remainingHeight
    if 0 < sourceY then
      drawImageCropped canvas c.imageData sourceY.toNat remainingHeight.toNat drawY
    else
      drawImageFull canvas c.imageData drawY
  else
    drawImageFull canvas c.imageData drawY

/-- stitchImages (arint-background.js): an offscreen canvas of size
viewportWidth * density by min(scrollHeight, MAX_PAGE_HEIGHT) * density,
initially blank (pixel value 0), onto which every capture is drawn in
list order. -/
def stitchImages (captures : List Capture) (g : PageGeometry) : Img :=
  { width := g.viewportWidth * g.pixelDensity
    height := totalHeight g * g.pixelDensity
    pixel := captures.foldl (stitchStep g) (fun _ _ => 0) }

/-- captureFullPage (arint-background.js): capture every segment in
increasing scroll order and stitch the results. -/
def captureFullPage (page : Nat → Nat → Nat) (g : PageGeometry) : Img :=
  stitchImages (captureSegments page g) g

/-- Handler of the GET_PENDING_CAPTURE message (arint-background.js,
lines 44-48): respond with the stored pendingCapture and clear the slot.
Returns the pair (response, new slot value). -/
def getPendingCapture (slot : Option α) : Option α × Option α :=
  (slot, none)

/-- openEditor (arint-background.js, lines 364-373): store the new image
in the pendingCapture slot, overwriting whatever was there. -/
def openEditor (imageData : α) (_slot : Option α) : Option α :=
  some imageData

/-- Selection rectangle sent with the SELECTION_COMPLETE message by the
content script: normalized top-left corner, non-negative extent, and the
current pixel density. -/
structure SelectionRect where
  x : Int
  y : Int
  width : Nat
  height : Nat
  pixelDensity : Nat
  deriving DecidableEq

/-- Outcome of a pointer-up in the region selector: either the
SELECTION_CANCELLED message or a SELECTION_COMPLETE message carrying one
rectangle. -/
inductive SelectorOutcome where
  | cancelled : SelectorOutcome
  | completed : SelectionRect → SelectorOutcome
  deriving DecidableEq

/-- onMouseUp of the content script (selection branch): normalize the
dragged rectangle by drag direction, cancel if either extent is below
10 px, otherwise emit the selection. -/
def onMouseUp (startX startY currentX currentY : Int) (d : Nat) : SelectorOutcome :=
  let x := min startX currentX
  let y := min startY currentY
  let width := (currentX - startX).natAbs
  let height := (currentY - startY).natAbs
  if width < 10 ∨ height < 10 then
    SelectorOutcome.cancelled
  else
    SelectorOutcome.completed ⟨x, y, width, height, d⟩

/-- One history entry of the editor (arint-editor.js saveState): the pixel
buffer read back from the canvas plus the canvas dimensions. -/
structure Snapshot where
  imageData : List Nat
  width : Nat
  height : Nat
  deriving DecidableEq

instance : Inhabited Snapshot := ⟨⟨[], 0, 0⟩⟩

/-- The editor state relevant to undo/redo: the main canvas (dimensions
and pixel buffer) and the bounded history stack with its cursor.  The
cursor is signed because it starts at -1 before the first snapshot. -/
structure EditorState where
  canvasWidth : Nat
  canvasHeight : Nat
  canvasData : List Nat
  history : List Snapshot
  historyIndex : Int
  deriving DecidableEq

/-- History capacity this.maxHistory = 20 set in the editor constructor. -/
def maxHistory : Nat := 20

/-- The snapshot saveState would record right now: getImageData over the
whole canvas together with the canvas dimensions. -/
def currentSnapshot (s : EditorState) : Snapshot :=
  ⟨s.canvasData, s.canvasWidth, s.canvasHeight⟩

/-- saveState (arint-editor.js, lines 521-546): drop any redo states
beyond the cursor, push the current snapshot, then either evict the
oldest entry (shift) when over capacity or advance the cursor. -/
def saveState (s : EditorState) : EditorState :=
  let trimmed :=
    if s.historyIndex < (s.history.length : Int) - 1 then
      s.history.take (s.historyIndex + 1).toNat
    else s.history
  let pushed := trimmed ++ [currentSnapshot s]
  if maxHistory < pushed.length then
    { s with history := pushed.tail }
  else
    { s with history := pushed, historyIndex := s.historyIndex + 1 }

/-- restoreState (arint-editor.js, lines 566-573): resize the canvas to
the entry's dimensions and put the entry's pixel buffer back. -/
def restoreState (s : EditorState) (entry : Snapshot) : EditorState :=
  { s with
      canvasWidth := entry.width
      canvasHeight := entry.height
      canvasData := entry.imageData }

/-- undo (arint-editor.js, lines 548-555): when the cursor is positive,
move it one step back and restore that entry; otherwise do nothing. -/
def undo (s : EditorState) : EditorState :=
  if 0 < s.historyIndex then
    { restoreState s (s.history.getD (s.historyIndex - 1).toNat default) with
        historyIndex := s.historyIndex - 1 }
  else s

/-- redo (arint-editor.js, lines 557-564): when the cursor is before the
last entry, move it one step forward and restore that entry; otherwise do
nothing. -/
def redo (s : EditorState) : EditorState :=
  if s.historyIndex < (s.history.length : Int) - 1 then
    { restoreState s (s.history.getD (s.historyIndex + 1).toNat default) with
        historyIndex := s.historyIndex + 1 }
  else s

/-- Overwrite the canvas with new content (dimensions and pixel buffer),
as loadImage and applyCrop do before committing, and as a completed pen
stroke does to the pixel buffer. -/
def setCanvas (c : Snapshot) (s : EditorState) : EditorState :=
  { s with canvasWidth := c.width, canvasHeight := c.height, canvasData := c.imageData }

/-- One committed edit: mutate the canvas, then saveState - the shape of
every history push in the editor (stroke end, crop apply). -/
def commitEdit (c : Snapshot) (s : EditorState) : EditorState :=
  saveState (setCanvas c s)

/-- Editor state at construction time: empty history, cursor at -1
(arint-editor.js constructor, lines 30-33). -/
def initialEditor : EditorState :=
  ⟨0, 0, [], [], -1⟩

/-- loadImage (arint-editor.js): size the canvas to the image, draw it,
and saveState - the first history entry. -/
def loadImage (c : Snapshot) : EditorState :=
  commitEdit c initialEditor

/-- Apply a sequence of committed edits in order. -/
def applyEdits (s : EditorState) (edits : List Snapshot) : EditorState :=
  edits.foldl (fun t c => commitEdit c t) s

/-!  Helper lemmas about the capture schedule. -/

/-- The capture count is an upper ceiling: the scheduled segments cover the
whole capped height. -/
theorem totalHeight_le_count_mul (g : PageGeometry) (hV : 0 < g.viewportHeight) :
    totalHeight g ≤ captureCount g * g.viewportHeight := by
  have h1 : captureCount g * g.viewportHeight ≤ totalHeight g + g.viewportHeight - 1 :=
    Nat.div_mul_le_self _ _
  by_contra hcon
  push_neg at hcon
  have h3 : (captureCount g + 1) * g.viewportHeight ≤ totalHeight g + g.viewportHeight - 1 := by
    rw [Nat.add_mul, one_mul]
    omega
  have h4 : captureCount g + 1 ≤ captureCount g :=
    (Nat.le_div_iff_mul_le hV).mpr h3
  omega

/-- The capture count is a tight ceiling: one segment fewer would not reach
the capped height. -/
theorem pred_count_mul_lt_totalHeight (g : PageGeometry) (hV : 0 < g.viewportHeight)
    (ht : 0 < totalHeight g) : (captureCount g - 1) * g.viewportHeight < totalHeight g := by
  have h1 : captureCount g * g.viewportHeight ≤ totalHeight g + g.viewportHeight - 1 :=
    Nat.div_mul_le_self _ _
  have h2 : 1 ≤ captureCount g := by
    have h3 : 1 * g.viewportHeight ≤ totalHeight g + g.viewportHeight - 1 := by omega
    exact (Nat.le_div_iff_mul_le hV).mpr h3
  rw [Nat.sub_mul, one_mul]
  omega

/-- A page at least one viewport tall has a positive capped height. -/
theorem totalHeight_pos (g : PageGeometry) (hV : 0 < g.viewportHeight)
    (hVS : g.viewportHeight ≤ g.scrollHeight) : 0 < totalHeight g := by
  simp only [totalHeight, MAX_PAGE_HEIGHT]
  omega

/-- At least one segment is scheduled for a page at least one viewport tall. -/
theorem one_le_captureCount (g : PageGeometry) (hV : 0 < g.viewportHeight)
    (ht : 0 < totalHeight g) : 1 ≤ captureCount g := by
  have h3 : 1 * g.viewportHeight ≤ totalHeight g + g.viewportHeight - 1 := by omega
  exact (Nat.le_div_iff_mul_le hV).mpr h3

/-- Indexing the captures array gives the corresponding scheduled segment. -/
theorem captureSegments_getD (page : Nat → Nat → Nat) (g : PageGeometry) (i : Nat)
    (h : i < captureCount g) :
    (captureSegments page g).getD i default = captureSegment page g i := by
  simp only [captureSegments, List.getD_eq_getElem?_getD, List.getElem?_map]
  rw [List.getElem?_range h]
  rfl

/-- The captures array has one entry per scheduled index. -/
theorem captureSegments_length (page : Nat → Nat → Nat) (g : PageGeometry) :
    (captureSegments page g).length = captureCount g := by
  simp [captureSegments]

/-- C2: for every page geometry with viewportHeight V > 0, captureFullPage
computes totalHeight = min(scrollHeight, MAX_PAGE_HEIGHT), captures exactly
ceil(totalHeight / V) segments (the count is characterized as the exact
ceiling by the two multiplicative bounds), segment i is taken at vertical
offset i * V, offsets are strictly increasing, and exactly the last segment
is tagged final. -/
theorem C2_segment_schedule (page : Nat → Nat → Nat) (g : PageGeometry)
    (hV : 0 < g.viewportHeight) :
    totalHeight g = min g.scrollHeight MAX_PAGE_HEIGHT
    ∧ (captureSegments page g).length = captureCount g
    ∧ totalHeight g ≤ captureCount g * g.viewportHeight
    ∧ (0 < totalHeight g → (captureCount g - 1) * g.viewportHeight < totalHeight g)
    ∧ (∀ i, i < captureCount g →
        ((captureSegments page g).getD i default).offsetY = i * g.viewportHeight
        ∧ ((captureSegments page g).getD i default).imageData
            = captureVisibleTab page g (i * g.viewportHeight)
        ∧ (((captureSegments page g).getD i default).isLast = true
            ↔ i = captureCount g - 1))
    ∧ (∀ i j, i < j → j < captureCount g →
        ((captureSegments page g).getD i default).offsetY
          < ((captureSegments page g).getD j default).offsetY) := by
  refine ⟨rfl, captureSegments_length page g, totalHeight_le_count_mul g hV,
    fun ht => pred_count_mul_lt_totalHeight g hV ht, ?_, ?_⟩
  · intro i hi
    rw [captureSegments_getD page g i hi]
    refine ⟨rfl, rfl, ?_⟩
    simp [captureSegment, beq_iff_eq]
  · intro i j hij hj
    rw [captureSegments_getD page g i (hij.trans hj), captureSegments_getD page g j hj]
    exact (Nat.mul_lt_mul_right hV).mpr hij

/-- Witness for C2 at the geometry of the claim: scrollHeight 2500,
viewportHeight 1000 gives three segments at offsets 0, 1000, 2000, with
exactly the third tagged final. -/
theorem C2_segment_schedule_witness :
    (captureSegments (fun x y => 100 * y + x) ⟨800, 2500, 800, 1000, 1⟩).length = 3
    ∧ ((captureSegments (fun x y => 100 * y + x) ⟨800, 2500, 800, 1000, 1⟩).getD 0
        default).offsetY = 0
    ∧ ((captureSegments (fun x y => 100 * y + x) ⟨800, 2500, 800, 1000, 1⟩).getD 1
        default).offsetY = 1000
    ∧ ((captureSegments (fun x y => 100 * y + x) ⟨800, 2500, 800, 1000, 1⟩).getD 2
        default).offsetY = 2000
    ∧ ((captureSegments (fun x y => 100 * y + x) ⟨800, 2500, 800, 1000, 1⟩).getD 0
        default).isLast = false
    ∧ ((captureSegments (fun x y => 100 * y + x) ⟨800, 2500, 800, 1000, 1⟩).getD 1
        default).isLast = false
    ∧ ((captureSegments (fun x y => 100 * y + x) ⟨800, 2500, 800, 1000, 1⟩).getD 2
        default).isLast = true := by
  obtain ⟨-, hlen, -, -, hseg, -⟩ :=
    C2_segment_schedule (fun x y => 100 * y + x) ⟨800, 2500, 800, 1000, 1⟩ (by decide)
  have hc : captureCount ⟨800, 2500, 800, 1000, 1⟩ = 3 := by decide
  obtain ⟨h0o, -, h0l⟩ := hseg 0 (by decide)
  obtain ⟨h1o, -, h1l⟩ := hseg 1 (by decide)
  obtain ⟨h2o, -, h2l⟩ := hseg 2 (by decide)
  rw [hc] at hlen h0l h1l h2l
  refine ⟨hlen, by simpa using h0o, by simpa using h1o, by simpa using h2o, ?_, ?_, ?_⟩
  · exact Bool.eq_false_iff.mpr fun hcon => absurd (h0l.mp hcon) (by decide)
  · exact Bool.eq_false_iff.mpr fun hcon => absurd (h1l.mp hcon) (by decide)
  · exact h2l.mpr (by decide)

/-- Canvas contents after drawing only the first k captures of the
captures array, starting from the blank canvas. -/
def stitchPrefix (page : Nat → Nat → Nat) (g : PageGeometry) (k : Nat) : Nat → Nat → Nat :=
  ((captureSegments page g).take k).foldl (stitchStep g) (fun _ _ => 0)

/-- Drawing one more capture extends the prefix fold by one stitch step. -/
theorem stitchPrefix_succ (page : Nat → Nat → Nat) (g : PageGeometry) (k : Nat)
    (hk : k < captureCount g) :
    stitchPrefix page g (k + 1)
      = stitchStep g (stitchPrefix page g k) (captureSegment page g k) := by
  unfold stitchPrefix
  rw [List.take_succ]
  have h : (captureSegments page g)[k]? = some (captureSegment page g k) := by
    simp only [captureSegments, List.getElem?_map]
    rw [List.getElem?_range hk]
    rfl
  rw [h]
  simp

/-- The stitched pixel function is the fold over the whole captures array. -/
theorem captureFullPage_pixel_fold (page : Nat → Nat → Nat) (g : PageGeometry) :
    (captureFullPage page g).pixel = stitchPrefix page g (captureCount g) := by
  unfold stitchPrefix
  rw [← captureSegments_length page g, List.take_length]
  rfl

/-- After drawing the first k captures, k at most the index of the final
segment, every canvas row strictly below k viewports holds the matching
page row.  All these captures are non-final, taken at unclamped offsets,
and drawn whole. -/
theorem stitchPrefix_partial (page : Nat → Nat → Nat) (g : PageGeometry)
    (hV : 0 < g.viewportHeight) (hVS : g.viewportHeight ≤ g.scrollHeight) :
    ∀ k, k ≤ captureCount g - 1 →
    ∀ x, x < g.viewportWidth * g.pixelDensity →
    ∀ y, y < k * g.viewportHeight * g.pixelDensity →
    stitchPrefix page g k x y = page x y := by
  intro k
  induction k with
  | zero =>
    intro _ x _ y hy
    simp at hy
  | succ k ih =>
    intro hk x hx y hy
    have hcount : 1 ≤ captureCount g :=
      one_le_captureCount g hV (totalHeight_pos g hV hVS)
    have hkc : k < captureCount g := by omega
    rw [stitchPrefix_succ page g k hkc]
    have hne : k ≠ captureCount g - 1 := by omega
    have hlast : (k == captureCount g - 1) = false := by
      simpa using hne
    have hbound : (k + 1) * g.viewportHeight < totalHeight g := by
      have h1 : (k + 1) * g.viewportHeight ≤ (captureCount g - 1) * g.viewportHeight :=
        Nat.mul_le_mul_right _ (by omega)
      have h2 : (captureCount g - 1) * g.viewportHeight < totalHeight g :=
        pred_count_mul_lt_totalHeight g hV (totalHeight_pos g hV hVS)
      omega
    have hts : totalHeight g ≤ g.scrollHeight := Nat.min_le_left _ _
    have hsplitmul : (k + 1) * g.viewportHeight = k * g.viewportHeight + g.viewportHeight := by
      ring
    have hclamp : clampScroll g (k * g.viewportHeight) = k * g.viewportHeight := by
      unfold clampScroll
      omega
    have hsplitmuld : (k + 1) * g.viewportHeight * g.pixelDensity
        = k * g.viewportHeight * g.pixelDensity + g.viewportHeight * g.pixelDensity := by
      ring
    simp only [stitchStep, captureSegment, captureVisibleTab, hlast, Bool.false_eq_true,
      if_false, drawImageFull, hclamp]
    by_cases hy1 : k * g.viewportHeight * g.pixelDensity ≤ y
    · rw [if_pos ⟨hx, hy1, by omega⟩]
      have harg : k * g.viewportHeight * g.pixelDensity
          + (y - k * g.viewportHeight * g.pixelDensity) = y := by
        omega
      rw [harg]
    · rw [if_neg (by omega)]
      exact ih (by omega) x hx y (by omega)

/-- Every pixel of the stitched full-page image inside its extent equals
the corresponding page pixel, for any geometry with a positive viewport
height no taller than the page. -/
theorem captureFullPage_pixel (page : Nat → Nat → Nat) (g : PageGeometry)
    (hV : 0 < g.viewportHeight) (hVS : g.viewportHeight ≤ g.scrollHeight) :
    ∀ x, x < g.viewportWidth * g.pixelDensity →
    ∀ y, y < totalHeight g * g.pixelDensity →
    (captureFullPage page g).pixel x y = page x y := by
  intro x hx y hy
  have hc1 : 1 ≤ captureCount g :=
    one_le_captureCount g hV (totalHeight_pos g hV hVS)
  obtain ⟨m, hm⟩ : ∃ m, captureCount g = m + 1 := ⟨captureCount g - 1, by omega⟩
  rw [captureFullPage_pixel_fold page g, hm,
    stitchPrefix_succ page g m (by omega)]
  have hml : (m == captureCount g - 1) = true := by
    rw [hm]
    simp
  have hmt : m * g.viewportHeight < totalHeight g := by
    have h := pred_count_mul_lt_totalHeight g hV (totalHeight_pos g hV hVS)
    rw [hm] at h
    simpa using h
  have hts : totalHeight g ≤ g.scrollHeight := Nat.min_le_left _ _
  have htc : totalHeight g ≤ (m + 1) * g.viewportHeight := by
    rw [← hm]
    exact totalHeight_le_count_mul g hV
  rcases Nat.eq_zero_or_pos g.pixelDensity with hd | hd
  · rw [hd] at hy
    simp at hy
  have p1 : m * g.viewportHeight * g.pixelDensity + g.viewportHeight * g.pixelDensity
      = (m + 1) * g.viewportHeight * g.pixelDensity := by
    ring
  have p3 : m * g.viewportHeight * g.pixelDensity < totalHeight g * g.pixelDensity :=
    (Nat.mul_lt_mul_right hd).mpr hmt
  have p4 : totalHeight g * g.pixelDensity ≤ g.scrollHeight * g.pixelDensity :=
    Nat.mul_le_mul_right _ hts
  have p2 : totalHeight g * g.pixelDensity ≤ (m + 1) * g.viewportHeight * g.pixelDensity :=
    Nat.mul_le_mul_right _ htc
  simp only [stitchStep, captureSegment, captureVisibleTab, hml, if_true]
  split
  case isTrue hsy =>
    -- the final segment overshoots: scrollHeight < (m+1) viewports
    have hbr : g.scrollHeight < (m + 1) * g.viewportHeight := by
      by_contra hcon
      push_neg at hcon
      have q1 : (m + 1) * g.viewportHeight * g.pixelDensity
          ≤ g.scrollHeight * g.pixelDensity :=
        Nat.mul_le_mul_right _ hcon
      omega
    have hclamp : clampScroll g (m * g.viewportHeight)
        = g.scrollHeight - g.viewportHeight := by
      unfold clampScroll
      have hsm : (m + 1) * g.viewportHeight = m * g.viewportHeight + g.viewportHeight := by
        ring
      omega
    have p6 : (g.scrollHeight - g.viewportHeight) * g.pixelDensity
        = g.scrollHeight * g.pixelDensity - g.viewportHeight * g.pixelDensity := by
      rw [Nat.sub_mul]
    have p7 : g.viewportHeight * g.pixelDensity ≤ g.scrollHeight * g.pixelDensity :=
      Nat.mul_le_mul_right _ hVS
    simp only [drawImageCropped, hclamp]
    by_cases hy1 : m * g.viewportHeight * g.pixelDensity ≤ y
    · rw [if_pos ⟨hx, hy1, by omega⟩]
      congr 1
      omega
    · rw [if_neg (by omega)]
      exact stitchPrefix_partial page g hV hVS m (by omega) x hx y (by omega)
  case isFalse hsy =>
    -- the final segment fits: (m+1) viewports fit within scrollHeight
    have hbr : (m + 1) * g.viewportHeight ≤ g.scrollHeight := by
      by_contra hcon
      push_neg at hcon
      have q2 : g.scrollHeight * g.pixelDensity
          < (m + 1) * g.viewportHeight * g.pixelDensity :=
        (Nat.mul_lt_mul_right hd).mpr hcon
      omega
    have hclamp : clampScroll g (m * g.viewportHeight) = m * g.viewportHeight := by
      unfold clampScroll
      have hsm : (m + 1) * g.viewportHeight = m * g.viewportHeight + g.viewportHeight := by
        ring
      omega
    simp only [drawImageFull, hclamp]
    by_cases hy1 : m * g.viewportHeight * g.pixelDensity ≤ y
    · rw [if_pos ⟨hx, hy1, by omega⟩]
      congr 1
      omega
    · rw [if_neg (by omega)]
      exact stitchPrefix_partial page g hV hVS m (by omega) x hx y (by omega)

/-- C3: in stitching, every non-final segment is drawn unmodified at its
vertical offset scaled by pixel density, and the final segment's draw is
cropped so that the stitched content ends exactly at totalHeight with each
output row holding the matching page row (hence no duplicated rows). -/
theorem C3_stitch_rows (page : Nat → Nat → Nat) (g : PageGeometry)
    (hV : 0 < g.viewportHeight) (hVS : g.viewportHeight ≤ g.scrollHeight) :
    (∀ i, i + 1 < captureCount g →
      ∀ x, x < g.viewportWidth * g.pixelDensity →
      ∀ r, r < g.viewportHeight * g.pixelDensity →
        (captureFullPage page g).pixel x (i * g.viewportHeight * g.pixelDensity + r)
          = (captureSegment page g i).imageData.pixel x r)
    ∧ (captureFullPage page g).height = totalHeight g * g.pixelDensity
    ∧ (∀ x, x < g.viewportWidth * g.pixelDensity →
        ∀ y, y < totalHeight g * g.pixelDensity →
          (captureFullPage page g).pixel x y = page x y) := by
  refine ⟨?_, rfl, captureFullPage_pixel page g hV hVS⟩
  intro i hi x hx r hr
  rcases Nat.eq_zero_or_pos g.pixelDensity with hd | hd
  · rw [hd] at hr
    simp at hr
  have hcnt : (i + 1) * g.viewportHeight ≤ (captureCount g - 1) * g.viewportHeight :=
    Nat.mul_le_mul_right _ (by omega)
  have h2 : (captureCount g - 1) * g.viewportHeight < totalHeight g :=
    pred_count_mul_lt_totalHeight g hV (totalHeight_pos g hV hVS)
  have hsm : (i + 1) * g.viewportHeight = i * g.viewportHeight + g.viewportHeight := by
    ring
  have hmul : (i + 1) * g.viewportHeight * g.pixelDensity
      ≤ totalHeight g * g.pixelDensity :=
    Nat.mul_le_mul_right _ (by omega)
  have hsmd : (i + 1) * g.viewportHeight * g.pixelDensity
      = i * g.viewportHeight * g.pixelDensity + g.viewportHeight * g.pixelDensity := by
    ring
  have hy : i * g.viewportHeight * g.pixelDensity + r < totalHeight g * g.pixelDensity := by
    omega
  rw [captureFullPage_pixel page g hV hVS x hx _ hy]
  have hts : totalHeight g ≤ g.scrollHeight := Nat.min_le_left _ _
  have hclamp : clampScroll g (i * g.viewportHeight) = i * g.viewportHeight := by
    unfold clampScroll
    omega
  simp only [captureSegment, captureVisibleTab, hclamp]

/-- C1 as stated fails on a degenerate geometry with scrollHeight strictly
below viewportHeight (scrollHeight 500, viewportHeight 1000): exactly one
segment is captured, but the stitched image is 500 rows tall while the
visible-viewport capture is 1000 rows tall, and even the top-left pixel
differs (the bottom-crop branch of stitchImages shifts the content). -/
theorem C1_counterexample :
    (⟨2, 500, 2, 1000, 1⟩ : PageGeometry).scrollHeight
        ≤ (⟨2, 500, 2, 1000, 1⟩ : PageGeometry).viewportHeight
    ∧ (captureSegments (fun x y => 100 * y + x) ⟨2, 500, 2, 1000, 1⟩).length = 1
    ∧ (captureFullPage (fun x y => 100 * y + x) ⟨2, 500, 2, 1000, 1⟩).height
        ≠ (captureVisibleTab (fun x y => 100 * y + x) ⟨2, 500, 2, 1000, 1⟩ 0).height
    ∧ (captureFullPage (fun x y => 100 * y + x) ⟨2, 500, 2, 1000, 1⟩).pixel 0 0
        ≠ (captureVisibleTab (fun x y => 100 * y + x) ⟨2, 500, 2, 1000, 1⟩ 0).pixel 0 0 := by
  exact ⟨by decide, by decide, by decide, by decide⟩

/-- C1 amended: a real document filling at most one viewport has
scrollHeight = viewportHeight, and then (for a nonempty viewport within
the MAX_PAGE_HEIGHT cap) captureFullPage captures exactly one segment and
the stitched image equals the single visible-viewport capture: same
dimensions and the same pixel at every coordinate of their common
extent. -/
theorem C1_single_segment (page : Nat → Nat → Nat) (g : PageGeometry)
    (hV : 0 < g.viewportHeight) (hEq : g.scrollHeight = g.viewportHeight)
    (hMax : g.scrollHeight ≤ MAX_PAGE_HEIGHT) :
    (captureSegments page g).length = 1
    ∧ (captureFullPage page g).width = (captureVisibleTab page g 0).width
    ∧ (captureFullPage page g).height = (captureVisibleTab page g 0).height
    ∧ (∀ x, x < (captureVisibleTab page g 0).width →
        ∀ y, y < (captureVisibleTab page g 0).height →
          (captureFullPage page g).pixel x y = (captureVisibleTab page g 0).pixel x y) := by
  have hVS : g.viewportHeight ≤ g.scrollHeight := hEq.ge
  have ht : totalHeight g = g.scrollHeight := Nat.min_eq_left hMax
  have htpos : 0 < totalHeight g := totalHeight_pos g hV hVS
  have hcount : captureCount g = 1 := by
    have hone := one_le_captureCount g hV htpos
    have h2 := pred_count_mul_lt_totalHeight g hV htpos
    by_contra hc
    have hmul : 1 * g.viewportHeight ≤ (captureCount g - 1) * g.viewportHeight :=
      Nat.mul_le_mul_right _ (by omega)
    rw [ht, hEq] at h2
    omega
  refine ⟨by rw [captureSegments_length, hcount], rfl, ?_, ?_⟩
  · show totalHeight g * g.pixelDensity = g.viewportHeight * g.pixelDensity
    rw [ht, hEq]
  · intro x hx y hy
    have hy2 : y < totalHeight g * g.pixelDensity := by
      rw [ht, hEq]
      exact hy
    rw [captureFullPage_pixel page g hV hVS x hx y hy2]
    have hclamp : clampScroll g 0 = 0 := by
      simp [clampScroll]
    simp only [captureVisibleTab, hclamp, Nat.zero_mul, Nat.zero_add]

/-- Witness for the amended C1 at scrollHeight = viewportHeight = 3,
pixel density 2: the hypotheses hold and the stitched image coincides with
the visible capture. -/
theorem C1_single_segment_witness :
    (captureSegments (fun x y => 100 * y + x) ⟨2, 3, 2, 3, 2⟩).length = 1
    ∧ (captureFullPage (fun x y => 100 * y + x) ⟨2, 3, 2, 3, 2⟩).width
        = (captureVisibleTab (fun x y => 100 * y + x) ⟨2, 3, 2, 3, 2⟩ 0).width
    ∧ (captureFullPage (fun x y => 100 * y + x) ⟨2, 3, 2, 3, 2⟩).height
        = (captureVisibleTab (fun x y => 100 * y + x) ⟨2, 3, 2, 3, 2⟩ 0).height
    ∧ (∀ x, x < (captureVisibleTab (fun x y => 100 * y + x) ⟨2, 3, 2, 3, 2⟩ 0).width →
        ∀ y, y < (captureVisibleTab (fun x y => 100 * y + x) ⟨2, 3, 2, 3, 2⟩ 0).height →
          (captureFullPage (fun x y => 100 * y + x) ⟨2, 3, 2, 3, 2⟩).pixel x y
            = (captureVisibleTab (fun x y => 100 * y + x) ⟨2, 3, 2, 3, 2⟩ 0).pixel x y) :=
  C1_single_segment (fun x y => 100 * y + x) ⟨2, 3, 2, 3, 2⟩ (by decide) (by decide) (by decide)

/-- Witness for C3 at a concrete geometry (scrollHeight 5, viewportHeight 2,
three segments): non-final segments are drawn unmodified and every stitched
row equals the page row. -/
theorem C3_stitch_rows_witness :
    (∀ i, i + 1 < captureCount ⟨2, 5, 2, 2, 1⟩ →
      ∀ x, x < (⟨2, 5, 2, 2, 1⟩ : PageGeometry).viewportWidth
          * (⟨2, 5, 2, 2, 1⟩ : PageGeometry).pixelDensity →
      ∀ r, r < (⟨2, 5, 2, 2, 1⟩ : PageGeometry).viewportHeight
          * (⟨2, 5, 2, 2, 1⟩ : PageGeometry).pixelDensity →
        (captureFullPage (fun x y => 100 * y + x) ⟨2, 5, 2, 2, 1⟩).pixel x
            (i * (⟨2, 5, 2, 2, 1⟩ : PageGeometry).viewportHeight
              * (⟨2, 5, 2, 2, 1⟩ : PageGeometry).pixelDensity + r)
          = (captureSegment (fun x y => 100 * y + x) ⟨2, 5, 2, 2, 1⟩ i).imageData.pixel x r)
    ∧ (captureFullPage (fun x y => 100 * y + x) ⟨2, 5, 2, 2, 1⟩).height
        = totalHeight ⟨2, 5, 2, 2, 1⟩ * (⟨2, 5, 2, 2, 1⟩ : PageGeometry).pixelDensity
    ∧ (∀ x, x < (⟨2, 5, 2, 2, 1⟩ : PageGeometry).viewportWidth
          * (⟨2, 5, 2, 2, 1⟩ : PageGeometry).pixelDensity →
        ∀ y, y < totalHeight ⟨2, 5, 2, 2, 1⟩
            * (⟨2, 5, 2, 2, 1⟩ : PageGeometry).pixelDensity →
          (captureFullPage (fun x y => 100 * y + x) ⟨2, 5, 2, 2, 1⟩).pixel x y
            = (fun x y => 100 * y + x : Nat → Nat → Nat) x y) :=
  C3_stitch_rows (fun x y => 100 * y + x) ⟨2, 5, 2, 2, 1⟩ (by decide) (by decide)

/-- C7: the stitched image returned by captureFullPage is never taller than
MAX_PAGE_HEIGHT scaled by the pixel density, for every page and geometry. -/
theorem C7_stitched_height_bounded (page : Nat → Nat → Nat) (g : PageGeometry) :
    (captureFullPage page g).height ≤ MAX_PAGE_HEIGHT * g.pixelDensity := by
  exact Nat.mul_le_mul_right g.pixelDensity
    (Nat.min_le_right g.scrollHeight MAX_PAGE_HEIGHT)

/-- C4: the pending-capture slot delivers at most once.  A
GET_PENDING_CAPTURE request answers with the stored image and clears the
slot, so an immediately following request with no intervening capture
answers none, and a new handoff through openEditor overwrites whatever was
in the slot. -/
theorem C4_pending_at_most_once (α : Type) (imageData : α) (slot : Option α) :
    (getPendingCapture slot).1 = slot
    ∧ (getPendingCapture slot).2 = none
    ∧ (getPendingCapture (getPendingCapture slot).2).1 = none
    ∧ openEditor imageData slot = some imageData :=
  ⟨rfl, rfl, rfl, rfl⟩

/-- C8: on pointer-up of the region selector, a dragged rectangle whose
normalized width or height is below 10 px always yields the cancellation
outcome, at any position; otherwise exactly the normalized SelectionRect
is emitted. -/
theorem C8_minimum_selection (startX startY currentX currentY : Int) (d : Nat) :
    ((currentX - startX).natAbs < 10 ∨ (currentY - startY).natAbs < 10 →
      onMouseUp startX startY currentX currentY d = SelectorOutcome.cancelled)
    ∧ (10 ≤ (currentX - startX).natAbs → 10 ≤ (currentY - startY).natAbs →
      onMouseUp startX startY currentX currentY d
        = SelectorOutcome.completed
            ⟨min startX currentX, min startY currentY,
              (currentX - startX).natAbs, (currentY - startY).natAbs, d⟩) := by
  constructor
  · intro h
    unfold onMouseUp
    rw [if_pos h]
  · intro hw hh
    unfold onMouseUp
    rw [if_neg (by omega)]

/-- Witness for C8: a 5 by 360 drag cancels; a 20 by 30 drag towards the
upper left emits the normalized rectangle. -/
theorem C8_minimum_selection_witness :
    onMouseUp 40 40 45 400 1 = SelectorOutcome.cancelled
    ∧ onMouseUp 0 0 (-20) 30 2 = SelectorOutcome.completed ⟨-20, 0, 20, 30, 2⟩ :=
  ⟨(C8_minimum_selection 40 40 45 400 1).1 (by decide),
   (C8_minimum_selection 0 0 (-20) 30 2).2 (by decide) (by decide)⟩

/-!  Helper lemmas about the editor history. -/

/-- One undo keeps the history list, clamps the cursor one step towards 0,
and keeps the cursor inside the history. -/
theorem undo_preserves (s : EditorState) (h0 : 0 ≤ s.historyIndex)
    (h1 : s.historyIndex < (s.history.length : Int)) :
    (undo s).history = s.history
    ∧ (undo s).historyIndex = max (s.historyIndex - 1) 0
    ∧ 0 ≤ (undo s).historyIndex
    ∧ (undo s).historyIndex < ((undo s).history.length : Int) := by
  unfold undo
  split
  case isTrue h =>
    refine ⟨rfl, ?_, ?_, ?_⟩ <;> simp [restoreState] <;> omega
  case isFalse h =>
    refine ⟨rfl, by omega, h0, h1⟩

/-- One redo keeps the history list, clamps the cursor one step towards the
top entry, and keeps the cursor inside the history. -/
theorem redo_preserves (s : EditorState) (h0 : 0 ≤ s.historyIndex)
    (h1 : s.historyIndex < (s.history.length : Int)) :
    (redo s).history = s.history
    ∧ (redo s).historyIndex = min (s.historyIndex + 1) ((s.history.length : Int) - 1)
    ∧ 0 ≤ (redo s).historyIndex
    ∧ (redo s).historyIndex < ((redo s).history.length : Int) := by
  unfold redo
  split
  case isTrue h =>
    refine ⟨rfl, ?_, ?_, ?_⟩ <;> simp [restoreState] <;> omega
  case isFalse h =>
    refine ⟨rfl, by omega, h0, h1⟩

/-- Undo keeps the canvas in sync with the history entry at the cursor. -/
theorem undo_snapshot (s : EditorState)
    (h : s.history.getD s.historyIndex.toNat default = currentSnapshot s) :
    (undo s).history.getD (undo s).historyIndex.toNat default
      = currentSnapshot (undo s) := by
  unfold undo
  split
  case isTrue hpos => rfl
  case isFalse hpos => exact h

/-- Redo keeps the canvas in sync with the history entry at the cursor. -/
theorem redo_snapshot (s : EditorState)
    (h : s.history.getD s.historyIndex.toNat default = currentSnapshot s) :
    (redo s).history.getD (redo s).historyIndex.toNat default
      = currentSnapshot (redo s) := by
  unfold redo
  split
  case isTrue hpos => rfl
  case isFalse hpos => exact h

/-- n undos keep the history list, move the cursor to
max (historyIndex - n) 0, and keep it inside the history. -/
theorem undo_iter_preserves (n : Nat) :
    ∀ s : EditorState, 0 ≤ s.historyIndex → s.historyIndex < (s.history.length : Int) →
    (undo^[n] s).history = s.history
    ∧ (undo^[n] s).historyIndex = max (s.historyIndex - n) 0
    ∧ 0 ≤ (undo^[n] s).historyIndex
    ∧ (undo^[n] s).historyIndex < ((undo^[n] s).history.length : Int) := by
  induction n with
  | zero =>
    intro s h0 h1
    rw [Function.iterate_zero_apply]
    exact ⟨rfl, by omega, h0, h1⟩
  | succ n ih =>
    intro s h0 h1
    rw [Function.iterate_succ_apply']
    obtain ⟨ih1, ih2, ih3, ih4⟩ := ih s h0 h1
    obtain ⟨u1, u2, u3, u4⟩ := undo_preserves (undo^[n] s) ih3 ih4
    refine ⟨u1.trans ih1, ?_, u3, u4⟩
    rw [u2, ih2]
    push_cast
    omega

/-- n redos keep the history list, move the cursor to
min (historyIndex + n) (length - 1), and keep it inside the history. -/
theorem redo_iter_preserves (n : Nat) :
    ∀ s : EditorState, 0 ≤ s.historyIndex → s.historyIndex < (s.history.length : Int) →
    (redo^[n] s).history = s.history
    ∧ (redo^[n] s).historyIndex = min (s.historyIndex + n) ((s.history.length : Int) - 1)
    ∧ 0 ≤ (redo^[n] s).historyIndex
    ∧ (redo^[n] s).historyIndex < ((redo^[n] s).history.length : Int) := by
  induction n with
  | zero =>
    intro s h0 h1
    rw [Function.iterate_zero_apply]
    exact ⟨rfl, by omega, h0, h1⟩
  | succ n ih =>
    intro s h0 h1
    rw [Function.iterate_succ_apply']
    obtain ⟨ih1, ih2, ih3, ih4⟩ := ih s h0 h1
    obtain ⟨r1, r2, r3, r4⟩ := redo_preserves (redo^[n] s) ih3 ih4
    refine ⟨r1.trans ih1, ?_, r3, r4⟩
    rw [r2, ih2, ih1]
    push_cast
    omega

/-- n undos keep the canvas in sync with the entry at the cursor. -/
theorem undo_iter_snapshot (n : Nat) :
    ∀ s : EditorState,
    s.history.getD s.historyIndex.toNat default = currentSnapshot s →
    (undo^[n] s).history.getD (undo^[n] s).historyIndex.toNat default
      = currentSnapshot (undo^[n] s) := by
  induction n with
  | zero => intro s h; exact h
  | succ n ih =>
    intro s h
    rw [Function.iterate_succ_apply']
    exact undo_snapshot _ (ih s h)

/-- n redos keep the canvas in sync with the entry at the cursor. -/
theorem redo_iter_snapshot (n : Nat) :
    ∀ s : EditorState,
    s.history.getD s.historyIndex.toNat default = currentSnapshot s →
    (redo^[n] s).history.getD (redo^[n] s).historyIndex.toNat default
      = currentSnapshot (redo^[n] s) := by
  induction n with
  | zero => intro s h; exact h
  | succ n ih =>
    intro s h
    rw [Function.iterate_succ_apply']
    exact redo_snapshot _ (ih s h)

/-- Invariant of the editor after any sequence of committed edits: the
cursor sits on the newest history entry, the history is nonempty and
within capacity, and the canvas matches the entry at the cursor. -/
def GoodState (s : EditorState) : Prop :=
  s.historyIndex = (s.history.length : Int) - 1
  ∧ 1 ≤ s.history.length
  ∧ s.history.length ≤ maxHistory
  ∧ s.history.getD s.historyIndex.toNat default = currentSnapshot s

/-- When the cursor is on the newest entry and there is room, saveState
appends the current snapshot and advances the cursor. -/
theorem saveState_push (s : EditorState)
    (hidx : ¬ s.historyIndex < (s.history.length : Int) - 1)
    (hlen : s.history.length + 1 ≤ maxHistory) :
    saveState s = { s with history := s.history ++ [currentSnapshot s],
                           historyIndex := s.historyIndex + 1 } := by
  have hc2 : ¬ maxHistory < (s.history ++ [currentSnapshot s]).length := by
    simp only [List.length_append, List.length_cons, List.length_nil]
    omega
  unfold saveState
  rw [if_neg hidx, if_neg hc2]

/-- When the cursor is on the newest entry and the history is full,
saveState appends the current snapshot, evicts the oldest entry, and
leaves the cursor in place. -/
theorem saveState_evict (s : EditorState)
    (hidx : ¬ s.historyIndex < (s.history.length : Int) - 1)
    (hlen : maxHistory < s.history.length + 1) :
    saveState s = { s with history := (s.history ++ [currentSnapshot s]).tail } := by
  have hc2 : maxHistory < (s.history ++ [currentSnapshot s]).length := by
    simp only [List.length_append, List.length_cons, List.length_nil]
    omega
  unfold saveState
  rw [if_neg hidx, if_pos hc2]

/-- When the cursor sits strictly below the newest entry, saveState drops
the redo tail, appends the current snapshot, and advances the cursor. -/
theorem saveState_trim (s : EditorState)
    (hidx : s.historyIndex < (s.history.length : Int) - 1)
    (h0 : -1 ≤ s.historyIndex) (hlen : s.history.length ≤ maxHistory) :
    saveState s = { s with
        history := s.history.take (s.historyIndex + 1).toNat ++ [currentSnapshot s],
        historyIndex := s.historyIndex + 1 } := by
  have hc2 : ¬ maxHistory
      < (s.history.take (s.historyIndex + 1).toNat ++ [currentSnapshot s]).length := by
    simp only [List.length_append, List.length_take, List.length_cons, List.length_nil]
    omega
  unfold saveState
  rw [if_pos hidx, if_neg hc2]

/-- Loading the captured image establishes the editor invariant. -/
theorem loadImage_good (c : Snapshot) : GoodState (loadImage c) :=
  ⟨rfl, Nat.le_refl 1, by show (1 : Nat) ≤ 20; omega, rfl⟩

/-- Committing an edit preserves the editor invariant, including at full
capacity where the oldest entry is evicted. -/
theorem commitEdit_good (c : Snapshot) (s : EditorState) (h : GoodState s) :
    GoodState (commitEdit c s) := by
  obtain ⟨hidx, hlen1, hlen20, hsnap⟩ := h
  show GoodState (saveState (setCanvas c s))
  have hh : (setCanvas c s).history = s.history := rfl
  have hi : (setCanvas c s).historyIndex = s.historyIndex := rfl
  have hcs : currentSnapshot (setCanvas c s) = c := rfl
  by_cases hcap : s.history.length + 1 ≤ maxHistory
  · rw [saveState_push (setCanvas c s) (by rw [hi, hh]; omega) (by rw [hh]; exact hcap)]
    refine ⟨?_, ?_, ?_, ?_⟩
    · show s.historyIndex + 1 = ((s.history ++ [c]).length : Int) - 1
      simp only [List.length_append, List.length_cons, List.length_nil]
      omega
    · show 1 ≤ (s.history ++ [c]).length
      simp
    · show (s.history ++ [c]).length ≤ maxHistory
      simp only [List.length_append, List.length_cons, List.length_nil]
      omega
    · show (s.history ++ [c]).getD (s.historyIndex + 1).toNat default = c
      have htn : (s.historyIndex + 1).toNat = s.history.length := by omega
      rw [htn, List.getD_eq_getElem?_getD, List.getElem?_concat_length]
      rfl
  · rw [saveState_evict (setCanvas c s) (by rw [hi, hh]; omega) (by rw [hh]; omega)]
    have hne : s.history ≠ [] := by
      intro hnil
      rw [hnil] at hlen1
      exact absurd hlen1 (by decide)
    have htail : (s.history ++ [c]).tail = s.history.tail ++ [c] :=
      List.tail_append_of_ne_nil hne
    refine ⟨?_, ?_, ?_, ?_⟩
    · show s.historyIndex = (((s.history ++ [c]).tail).length : Int) - 1
      simp only [List.length_tail, List.length_append, List.length_cons, List.length_nil]
      omega
    · show 1 ≤ ((s.history ++ [c]).tail).length
      rw [htail]
      simp
    · show ((s.history ++ [c]).tail).length ≤ maxHistory
      simp only [List.length_tail, List.length_append, List.length_cons, List.length_nil]
      omega
    · show ((s.history ++ [c]).tail).getD s.historyIndex.toNat default = c
      rw [htail]
      have htn : s.historyIndex.toNat = s.history.tail.length := by
        simp only [List.length_tail]
        omega
      rw [htn, List.getD_eq_getElem?_getD, List.getElem?_concat_length]
      rfl

/-- A whole sequence of committed edits preserves the editor invariant. -/
theorem applyEdits_good (edits : List Snapshot) :
    ∀ s : EditorState, GoodState s → GoodState (applyEdits s edits) := by
  induction edits with
  | nil => intro s h; exact h
  | cons c rest ih =>
    intro s h
    show GoodState (applyEdits (commitEdit c s) rest)
    exact ih _ (commitEdit_good c s h)

/-- With the cursor already on the newest entry, redo does nothing. -/
theorem redo_noop (s : EditorState)
    (h : ¬ s.historyIndex < (s.history.length : Int) - 1) :
    redo s = s := by
  unfold redo
  rw [if_neg h]

/-- C5: loading an image and committing N edits, then undoing N times and
redoing N times, restores the canvas pixel buffer and dimensions exactly
to the state after the Nth edit, for any N within the history capacity. -/
theorem C5_undo_redo_roundtrip (img0 : Snapshot) (edits : List Snapshot)
    (_hN : edits.length ≤ maxHistory) :
    (redo^[edits.length] (undo^[edits.length]
        (applyEdits (loadImage img0) edits))).canvasData
      = (applyEdits (loadImage img0) edits).canvasData
    ∧ (redo^[edits.length] (undo^[edits.length]
        (applyEdits (loadImage img0) edits))).canvasWidth
      = (applyEdits (loadImage img0) edits).canvasWidth
    ∧ (redo^[edits.length] (undo^[edits.length]
        (applyEdits (loadImage img0) edits))).canvasHeight
      = (applyEdits (loadImage img0) edits).canvasHeight := by
  obtain ⟨hidx, hlen1, hlen20, hsnap⟩ :=
    applyEdits_good edits (loadImage img0) (loadImage_good img0)
  have hb0 : 0 ≤ (applyEdits (loadImage img0) edits).historyIndex := by omega
  have hb1 : (applyEdits (loadImage img0) edits).historyIndex
      < ((applyEdits (loadImage img0) edits).history.length : Int) := by omega
  obtain ⟨u1, u2, u3, u4⟩ :=
    undo_iter_preserves edits.length (applyEdits (loadImage img0) edits) hb0 hb1
  have usnap := undo_iter_snapshot edits.length (applyEdits (loadImage img0) edits) hsnap
  obtain ⟨r1, r2, r3, r4⟩ :=
    redo_iter_preserves edits.length
      (undo^[edits.length] (applyEdits (loadImage img0) edits)) u3 u4
  have rsnap := redo_iter_snapshot edits.length
      (undo^[edits.length] (applyEdits (loadImage img0) edits)) usnap
  have hh2 : (redo^[edits.length] (undo^[edits.length]
      (applyEdits (loadImage img0) edits))).history
      = (applyEdits (loadImage img0) edits).history := r1.trans u1
  have hfin : (redo^[edits.length] (undo^[edits.length]
      (applyEdits (loadImage img0) edits))).historyIndex
      = (applyEdits (loadImage img0) edits).historyIndex := by
    rw [r2, u2, u1]
    omega
  have hcur : currentSnapshot (redo^[edits.length] (undo^[edits.length]
      (applyEdits (loadImage img0) edits)))
      = currentSnapshot (applyEdits (loadImage img0) edits) := by
    rw [← rsnap, hh2, hfin, hsnap]
  exact ⟨congrArg Snapshot.imageData hcur, congrArg Snapshot.width hcur,
    congrArg Snapshot.height hcur⟩

/-- Witness for C5 with two committed edits (the second a crop that changes
the dimensions): two undos followed by two redos restore buffer and
dimensions. -/
theorem C5_undo_redo_roundtrip_witness :
    ([⟨[5], 1, 2⟩, ⟨[6, 7], 2, 1⟩] : List Snapshot).length ≤ maxHistory
    ∧ ((redo^[2] (undo^[2]
          (applyEdits (loadImage ⟨[1], 1, 1⟩) [⟨[5], 1, 2⟩, ⟨[6, 7], 2, 1⟩]))).canvasData
        = (applyEdits (loadImage ⟨[1], 1, 1⟩) [⟨[5], 1, 2⟩, ⟨[6, 7], 2, 1⟩]).canvasData
      ∧ (redo^[2] (undo^[2]
          (applyEdits (loadImage ⟨[1], 1, 1⟩) [⟨[5], 1, 2⟩, ⟨[6, 7], 2, 1⟩]))).canvasWidth
        = (applyEdits (loadImage ⟨[1], 1, 1⟩) [⟨[5], 1, 2⟩, ⟨[6, 7], 2, 1⟩]).canvasWidth
      ∧ (redo^[2] (undo^[2]
          (applyEdits (loadImage ⟨[1], 1, 1⟩) [⟨[5], 1, 2⟩, ⟨[6, 7], 2, 1⟩]))).canvasHeight
        = (applyEdits (loadImage ⟨[1], 1, 1⟩) [⟨[5], 1, 2⟩, ⟨[6, 7], 2, 1⟩]).canvasHeight) :=
  ⟨by decide, C5_undo_redo_roundtrip ⟨[1], 1, 1⟩ [⟨[5], 1, 2⟩, ⟨[6, 7], 2, 1⟩] (by decide)⟩

/-- C6: committing a new edit after undoing K steps discards exactly the K
previously-redoable entries (the kept history is the prefix up to the
cursor plus the new entry), and a subsequent redo is a no-op. -/
theorem C6_commit_discards_redo (s : EditorState) (c : Snapshot) (K : Nat)
    (hidx : s.historyIndex = (s.history.length : Int) - 1)
    (hcap : s.history.length ≤ maxHistory)
    (hK1 : 1 ≤ K) (hK : (K : Int) ≤ s.historyIndex) :
    (commitEdit c (undo^[K] s)).history
      = s.history.take (s.history.length - K) ++ [c]
    ∧ redo (commitEdit c (undo^[K] s)) = commitEdit c (undo^[K] s) := by
  have hb0 : 0 ≤ s.historyIndex := by omega
  have hb1 : s.historyIndex < (s.history.length : Int) := by omega
  have hlen2 : 2 ≤ s.history.length := by omega
  obtain ⟨u1, u2, u3, u4⟩ := undo_iter_preserves K s hb0 hb1
  have hsh : (setCanvas c (undo^[K] s)).history = s.history := u1
  have hsi : (setCanvas c (undo^[K] s)).historyIndex
      = (s.history.length : Int) - 1 - K := by
    show (undo^[K] s).historyIndex = _
    rw [u2, hidx]
    omega
  have htrim := saveState_trim (setCanvas c (undo^[K] s))
    (by rw [hsi, hsh]; omega) (by rw [hsi]; omega) (by rw [hsh]; exact hcap)
  have htn : ((setCanvas c (undo^[K] s)).historyIndex + 1).toNat
      = s.history.length - K := by
    rw [hsi]
    omega
  have hpart1 : (commitEdit c (undo^[K] s)).history
      = s.history.take (s.history.length - K) ++ [c] := by
    show (saveState (setCanvas c (undo^[K] s))).history = _
    rw [htrim]
    show (setCanvas c (undo^[K] s)).history.take
        ((setCanvas c (undo^[K] s)).historyIndex + 1).toNat
        ++ [currentSnapshot (setCanvas c (undo^[K] s))] = _
    rw [htn, hsh]
    rfl
  have hr1 : (commitEdit c (undo^[K] s)).historyIndex
      = (s.history.length : Int) - K := by
    show (saveState (setCanvas c (undo^[K] s))).historyIndex = _
    rw [htrim]
    show (setCanvas c (undo^[K] s)).historyIndex + 1 = _
    rw [hsi]
    omega
  have hr2 : (commitEdit c (undo^[K] s)).history.length
      = s.history.length - K + 1 := by
    rw [hpart1]
    simp only [List.length_append, List.length_take, List.length_cons, List.length_nil]
    omega
  refine ⟨hpart1, redo_noop _ ?_⟩
  rw [hr1, hr2]
  push_cast
  omega

/-- Witness for C6: after three committed states, one undo and a fresh
commit keep the first two entries, append the new one, and leave redo a
no-op. -/
theorem C6_commit_discards_redo_witness :
    (commitEdit ⟨[9], 1, 1⟩ (undo^[1]
        (applyEdits (loadImage ⟨[0], 1, 1⟩) [⟨[1], 1, 1⟩, ⟨[2], 1, 1⟩]))).history
      = (applyEdits (loadImage ⟨[0], 1, 1⟩) [⟨[1], 1, 1⟩, ⟨[2], 1, 1⟩]).history.take
          ((applyEdits (loadImage ⟨[0], 1, 1⟩)
            [⟨[1], 1, 1⟩, ⟨[2], 1, 1⟩]).history.length - 1) ++ [⟨[9], 1, 1⟩]
    ∧ redo (commitEdit ⟨[9], 1, 1⟩ (undo^[1]
        (applyEdits (loadImage ⟨[0], 1, 1⟩) [⟨[1], 1, 1⟩, ⟨[2], 1, 1⟩])))
      = commitEdit ⟨[9], 1, 1⟩ (undo^[1]
        (applyEdits (loadImage ⟨[0], 1, 1⟩) [⟨[1], 1, 1⟩, ⟨[2], 1, 1⟩])) :=
  C6_commit_discards_redo
    (applyEdits (loadImage ⟨[0], 1, 1⟩) [⟨[1], 1, 1⟩, ⟨[2], 1, 1⟩])
    ⟨[9], 1, 1⟩ 1 (by decide) (by decide) (by decide) (by decide)

/-- C9 as stated fails: after loading a 2 by 2 image, committing a 1 by 1
crop, and undoing once, the canvas is 2 pixels wide while the topmost
(newest) history entry records width 1.  restoreState aligns the canvas
with the entry at the cursor, not with the top of the stack. -/
theorem C9_counterexample :
    (undo (commitEdit ⟨[9], 1, 1⟩ (loadImage ⟨[1, 2, 3, 4], 2, 2⟩))).canvasWidth
      ≠ ((undo (commitEdit ⟨[9], 1, 1⟩ (loadImage ⟨[1, 2, 3, 4], 2, 2⟩))).history.getD
          ((undo (commitEdit ⟨[9], 1, 1⟩
            (loadImage ⟨[1, 2, 3, 4], 2, 2⟩))).history.length - 1)
          default).width := by
  decide

/-- C9 amended: immediately after every state-restoring operation (undo or
redo), the canvas dimensions equal the dimensions of the history entry at
the current cursor, provided the canvas matched the entry at the cursor
beforehand (which load and every commit establish). -/
theorem C9_restore_dims (s : EditorState)
    (h : s.history.getD s.historyIndex.toNat default = currentSnapshot s) :
    ((undo s).canvasWidth
        = ((undo s).history.getD (undo s).historyIndex.toNat default).width
      ∧ (undo s).canvasHeight
        = ((undo s).history.getD (undo s).historyIndex.toNat default).height)
    ∧ ((redo s).canvasWidth
        = ((redo s).history.getD (redo s).historyIndex.toNat default).width
      ∧ (redo s).canvasHeight
        = ((redo s).history.getD (redo s).historyIndex.toNat default).height) := by
  have hu := undo_snapshot s h
  have hr := redo_snapshot s h
  exact ⟨⟨(congrArg Snapshot.width hu).symm, (congrArg Snapshot.height hu).symm⟩,
    ⟨(congrArg Snapshot.width hr).symm, (congrArg Snapshot.height hr).symm⟩⟩

/-- Witness for the amended C9 on the state of the counterexample: both
undo and redo leave the canvas dimensions equal to the entry at the
cursor. -/
theorem C9_restore_dims_witness :
    ((undo (commitEdit ⟨[9], 1, 1⟩ (loadImage ⟨[1, 2, 3, 4], 2, 2⟩))).canvasWidth
        = ((undo (commitEdit ⟨[9], 1, 1⟩ (loadImage ⟨[1, 2, 3, 4], 2, 2⟩))).history.getD
            (undo (commitEdit ⟨[9], 1, 1⟩
              (loadImage ⟨[1, 2, 3, 4], 2, 2⟩))).historyIndex.toNat default).width
      ∧ (undo (commitEdit ⟨[9], 1, 1⟩ (loadImage ⟨[1, 2, 3, 4], 2, 2⟩))).canvasHeight
        = ((undo (commitEdit ⟨[9], 1, 1⟩ (loadImage ⟨[1, 2, 3, 4], 2, 2⟩))).history.getD
            (undo (commitEdit ⟨[9], 1, 1⟩
              (loadImage ⟨[1, 2, 3, 4], 2, 2⟩))).historyIndex.toNat default).height)
    ∧ ((redo (commitEdit ⟨[9], 1, 1⟩ (loadImage ⟨[1, 2, 3, 4], 2, 2⟩))).canvasWidth
        = ((redo (commitEdit ⟨[9], 1, 1⟩ (loadImage ⟨[1, 2, 3, 4], 2, 2⟩))).history.getD
            (redo (commitEdit ⟨[9], 1, 1⟩
              (loadImage ⟨[1, 2, 3, 4], 2, 2⟩))).historyIndex.toNat default).width
      ∧ (redo (commitEdit ⟨[9], 1, 1⟩ (loadImage ⟨[1, 2, 3, 4], 2, 2⟩))).canvasHeight
        = ((redo (commitEdit ⟨[9], 1, 1⟩ (loadImage ⟨[1, 2, 3, 4], 2, 2⟩))).history.getD
            (redo (commitEdit ⟨[9], 1, 1⟩
              (loadImage ⟨[1, 2, 3, 4], 2, 2⟩))).historyIndex.toNat default).height) :=
  C9_restore_dims (commitEdit ⟨[9], 1, 1⟩ (loadImage ⟨[1, 2, 3, 4], 2, 2⟩)) (by decide)

/-- C10: after every saveState from a well-formed state (cursor at least
-1 and at most the newest entry, history within capacity), the cursor
points at the newest entry and the history length never exceeds
maxHistory, including the full-capacity case where the oldest entry is
evicted. -/
theorem C10_saveState_cursor (s : EditorState)
    (h1 : -1 ≤ s.historyIndex)
    (h2 : s.historyIndex ≤ (s.history.length : Int) - 1)
    (h3 : s.history.length ≤ maxHistory) :
    (saveState s).historyIndex = ((saveState s).history.length : Int) - 1
    ∧ (saveState s).history.length ≤ maxHistory := by
  by_cases hc : s.historyIndex < (s.history.length : Int) - 1
  · rw [saveState_trim s hc h1 h3]
    constructor
    · show s.historyIndex + 1
        = ((s.history.take (s.historyIndex + 1).toNat
            ++ [currentSnapshot s]).length : Int) - 1
      simp only [List.length_append, List.length_take, List.length_cons, List.length_nil]
      push_cast
      omega
    · show (s.history.take (s.historyIndex + 1).toNat
          ++ [currentSnapshot s]).length ≤ maxHistory
      simp only [List.length_append, List.length_take, List.length_cons, List.length_nil]
      omega
  · by_cases hcap : maxHistory < s.history.length + 1
    · rw [saveState_evict s hc hcap]
      constructor
      · show s.historyIndex = (((s.history ++ [currentSnapshot s]).tail).length : Int) - 1
        simp only [List.length_tail, List.length_append, List.length_cons, List.length_nil]
        omega
      · show ((s.history ++ [currentSnapshot s]).tail).length ≤ maxHistory
        simp only [List.length_tail, List.length_append, List.length_cons, List.length_nil]
        omega
    · rw [saveState_push s hc (by omega)]
      constructor
      · show s.historyIndex + 1 = ((s.history ++ [currentSnapshot s]).length : Int) - 1
        simp only [List.length_append, List.length_cons, List.length_nil]
        omega
      · show (s.history ++ [currentSnapshot s]).length ≤ maxHistory
        simp only [List.length_append, List.length_cons, List.length_nil]
        omega

/-- Witness for C10 at full capacity: saving on a 20-entry history with
the cursor at 19 evicts the oldest entry, keeps the length at 20, and
leaves the cursor on the newest entry. -/
theorem C10_saveState_cursor_witness :
    (saveState ⟨1, 1, [7], List.replicate 20 ⟨[], 1, 1⟩, 19⟩).historyIndex
      = ((saveState ⟨1, 1, [7],
          List.replicate 20 ⟨[], 1, 1⟩, 19⟩).history.length : Int) - 1
    ∧ (saveState ⟨1, 1, [7], List.replicate 20 ⟨[], 1, 1⟩, 19⟩).history.length
      ≤ maxHistory :=
  C10_saveState_cursor ⟨1, 1, [7], List.replicate 20 ⟨[], 1, 1⟩, 19⟩
    (by decide) (by decide) (by decide)

end Arint
